import Mathlib

set_option maxHeartbeats 1000000
set_option maxRecDepth 100000

/-!
Shallow embedding of the Dynamic Query Engine of this repository
(`src/models/Query.js`): the `Query` model's instance methods
`validateParameters`, `substituteParameters` and `recordExecution`,
together with the JavaScript primitives they rely on
(`Number`, `Boolean`, `isNaN`, `JSON.stringify`, `String.prototype.replace`
with a literal global pattern, and `JSON.parse`).

JavaScript numbers are modelled as exact rationals (`ℚ`); every value a
JSON body can carry is representable, and the arithmetic the code performs
(`+ 1`, `(a + b) / 2`, `<`, `>`) is modelled exactly.  Fallible operations
(`JSON.parse`, `new mongoose.Types.ObjectId`) return `Option`, with `none`
standing for a thrown exception.
-/

/-- A JavaScript runtime value as it can appear in a query document or a
parameter map: the JSON values, plus `nan`, the IEEE NaN produced by a
failed numeric coercion (`Number("abc")`).  Object fields keep insertion
order, as JavaScript string-keyed objects do. -/
inductive JsValue : Type where
  | null : JsValue
  | nan : JsValue
  | bool : Bool → JsValue
  | num : ℚ → JsValue
  | str : String → JsValue
  | arr : List JsValue → JsValue
  | obj : List (String × JsValue) → JsValue

/-- The whitespace characters trimmed by JavaScript's string-to-number
coercion (the ASCII fragment). -/
def isJsSpace (c : Char) : Bool :=
  c == ' ' || c == '\t' || c == '\n' || c == '\r' || c == '\x0b' || c == '\x0c'

/-- Numeric value of a list of decimal digit characters. -/
def digitsToNat (cs : List Char) : Nat :=
  cs.foldl (fun a c => a * 10 + (c.toNat - 48)) 0

/-- Parse the optional exponent part (`e`/`E`, optional sign, digits) of a
JavaScript decimal numeric literal; the whole remaining input must be
consumed.  Returns the exponent (`0` when absent). -/
def parseExpPart : List Char → Option Int
  | [] => some 0
  | e :: rest =>
    if e == 'e' || e == 'E' then
      let (sgn, ds) :=
        match rest with
        | '+' :: r => (1, r)
        | '-' :: r => (-1, r)
        | r => (1, r)
      if ds ≠ [] && ds.all Char.isDigit then
        some (sgn * (digitsToNat ds : Int))
      else none
    else none

/-- Parse an unsigned JavaScript decimal literal (`digits`, `digits.digits`,
`.digits`, optional exponent), consuming the whole input.  Hexadecimal,
octal, binary and `Infinity` literals are outside the modelled fragment
(no claim exercises them). -/
def parseUnsignedDec (cs : List Char) : Option ℚ :=
  let ip := cs.takeWhile Char.isDigit
  let rest := cs.dropWhile Char.isDigit
  match rest with
  | '.' :: rest2 =>
    let fp := rest2.takeWhile Char.isDigit
    let rest3 := rest2.dropWhile Char.isDigit
    if ip = [] && fp = [] then none
    else
      (parseExpPart rest3).map fun ex =>
        ((digitsToNat (ip ++ fp) : ℚ) / (10 : ℚ) ^ fp.length) * (10 : ℚ) ^ ex
  | _ =>
    if ip = [] then none
    else (parseExpPart rest).map fun ex => (digitsToNat ip : ℚ) * (10 : ℚ) ^ ex

/-- JavaScript's `StringToNumber` abstract operation (decimal fragment):
trim whitespace, the empty string is `0`, otherwise a signed decimal
literal; anything else is NaN (`none`). -/
def strToNumber (s : String) : Option ℚ :=
  let cs := (s.data.dropWhile isJsSpace).reverse.dropWhile isJsSpace |>.reverse
  match cs with
  | [] => some 0
  | '-' :: rest => (parseUnsignedDec rest).map Neg.neg
  | '+' :: rest => parseUnsignedDec rest
  | _ => parseUnsignedDec cs

/-- Smallest power of ten clearing the denominator, if any is found in the
search window.  Every value a JavaScript float can hold has a power-of-two
denominator, so the search succeeds on all values the code can encounter. -/
def findDecExp (q : ℚ) : Option Nat :=
  (List.range 400).find? fun k => (q * (10 : ℚ) ^ k).den == 1

/-- Decimal rendering of a non-negative rational, JavaScript style
(shortest exact decimal).  Exponential notation for extreme magnitudes is
outside the modelled fragment. -/
def ratStrNonneg (q : ℚ) : String :=
  match findDecExp q with
  | none => toString q.num ++ "/" ++ toString q.den
  | some 0 => toString q.num
  | some k =>
    let n := (q * (10 : ℚ) ^ k).num.natAbs
    let ds := toString n
    let ds := if ds.length ≤ k then String.mk (List.replicate (k + 1 - ds.length) '0') ++ ds else ds
    ds.take (ds.length - k) ++ "." ++ ds.drop (ds.length - k)

/-- JavaScript `ToString` on a number (decimal fragment). -/
def ratStr (q : ℚ) : String :=
  if q < 0 then "-" ++ ratStrNonneg (-q) else ratStrNonneg q

mutual
/-- JavaScript's `ToString` abstract operation on the modelled values. -/
def jsToStringVal : JsValue → String
  | .null => "null"
  | .nan => "NaN"
  | .bool b => if b then "true" else "false"
  | .num q => ratStr q
  | .str s => s
  | .arr xs => arrayJoin xs
  | .obj _ => "[object Object]"

/-- `Array.prototype.toString`: the elements' strings joined by `,`,
with `null` elements rendered empty. -/
def arrayJoin : List JsValue → String
  | [] => ""
  | [.null] => ""
  | [x] => jsToStringVal x
  | .null :: xs => "," ++ arrayJoin xs
  | x :: xs => jsToStringVal x ++ "," ++ arrayJoin xs
end

/-- JavaScript's `ToNumber` abstract operation; `none` is NaN.  Arrays go
through `ToPrimitive` (their joined string), plain objects give
`"[object Object]"`, which is not numeric. -/
def jsToNumber : JsValue → Option ℚ
  | .num q => some q
  | .nan => none
  | .bool b => some (if b then 1 else 0)
  | .null => some 0
  | .str s => strToNumber s
  | .arr xs => strToNumber (arrayJoin xs)
  | .obj _ => none

/-- JavaScript truthiness, as used by `Boolean(x)`. -/
def jsTruthy : JsValue → Bool
  | .null => false
  | .nan => false
  | .bool b => b
  | .num q => decide (q ≠ 0)
  | .str s => decide (s ≠ "")
  | .arr _ => true
  | .obj _ => true

/-- Hexadecimal digit test. -/
def isHexChar (c : Char) : Bool :=
  c.isDigit || ('a' ≤ c && c ≤ 'f') || ('A' ≤ c && c ≤ 'F')

/-- Modelled from the spec: `mongoose.Types.ObjectId.isValid` is library
code, not part of this repository; per the spec (§4.3) a value is valid
iff it is "a syntactically valid 24-hex-character identifier". -/
def isValidObjectId : JsValue → Bool
  | .str s => s.length == 24 && s.data.all isHexChar
  | _ => false

/-- `new mongoose.Types.ObjectId(v)`: returns the identifier (hex digits
lower-cased, as the driver stores them), or `none` for the exception the
constructor throws on invalid input. -/
def jsNewObjectId (v : JsValue) : Option String :=
  match v with
  | .str s => if isValidObjectId (.str s) then some (s.map Char.toLower) else none
  | _ => none

/-- Days since 1970-01-01 of a proleptic-Gregorian civil date
(Howard Hinnant's `days_from_civil`, floor-division form). -/
def daysFromCivil (y m d : Int) : Int :=
  let y' := if m ≤ 2 then y - 1 else y
  let era := Int.ediv y' 400
  let yoe := y' - era * 400
  let mp := if m ≤ 2 then m + 9 else m - 3
  let doy := Int.ediv (153 * mp + 2) 5 + d - 1
  let doe := yoe * 365 + Int.ediv yoe 4 - Int.ediv yoe 100 + doy
  era * 146097 + doe - 719468

/-- Civil date of a number of days since 1970-01-01 (Hinnant's
`civil_from_days`). -/
def civilFromDays (z : Int) : Int × Int × Int :=
  let z' := z + 719468
  let era := Int.ediv z' 146097
  let doe := Int.emod z' 146097
  let yoe := Int.ediv (doe - Int.ediv doe 1460 + Int.ediv doe 36524 - Int.ediv doe 146096) 365
  let y := yoe + era * 400
  let doy := doe - (365 * yoe + Int.ediv yoe 4 - Int.ediv yoe 100)
  let mp := Int.ediv (5 * doy + 2) 153
  let d := doy - Int.ediv (153 * mp + 2) 5 + 1
  let m := if mp < 10 then mp + 3 else mp - 9
  (y + (if m ≤ 2 then 1 else 0), m, d)

/-- Days in a month of the proleptic Gregorian calendar. -/
def daysInMonth (y m : Int) : Int :=
  if m = 2 then
    if Int.emod y 4 = 0 && (Int.emod y 100 ≠ 0 || Int.emod y 400 = 0) then 29 else 28
  else if m = 4 || m = 6 || m = 9 || m = 11 then 30
  else 31

/-- Modelled from the spec: the host's `Date.parse` is not part of this
repository; the spec only requires that a value "cannot be parsed into a
valid calendar date/time" be rejected.  The model accepts the ISO
`YYYY-MM-DD` date-only form (UTC midnight, in milliseconds) and treats
everything else as unparseable; no claim exercises other formats. -/
def dateParseString (s : String) : Option Int :=
  match s.data with
  | [y1, y2, y3, y4, '-', m1, m2, '-', d1, d2] =>
    if [y1, y2, y3, y4, m1, m2, d1, d2].all Char.isDigit then
      let y : Int := digitsToNat [y1, y2, y3, y4]
      let m : Int := digitsToNat [m1, m2]
      let d : Int := digitsToNat [d1, d2]
      if 1 ≤ m && m ≤ 12 && 1 ≤ d && d ≤ daysInMonth y m then
        some (86400000 * daysFromCivil y m d)
      else none
    else none
  | _ => none

/-- `Date.parse(v)` as called by the validator: the argument is coerced
with `ToString` first. -/
def jsDateParse (v : JsValue) : Option Int :=
  dateParseString (jsToStringVal v)

/-- Truncation toward zero, JavaScript's `ToIntegerOrInfinity` on a finite
number. -/
def ratTrunc (q : ℚ) : Int :=
  if 0 ≤ q then Rat.floor q else -(Rat.floor (-q))

/-- `new Date(v)`: a timestamp in milliseconds, or `none` for an Invalid
Date.  Numeric inputs are truncated and range-checked; strings go through
the parse model; other inputs follow `ToPrimitive`. -/
def jsNewDate : JsValue → Option Int
  | .num q =>
    if ratTrunc q ≤ 8640000000000000 && -8640000000000000 ≤ ratTrunc q then some (ratTrunc q)
    else none
  | .nan => none
  | .bool b => some (if b then 1 else 0)
  | .null => some 0
  | .str s => dateParseString s
  | .arr xs => dateParseString (arrayJoin xs)
  | .obj _ => none

/-- Left-pad a natural number's decimal digits to a given width. -/
def padNat (w : Nat) (n : Nat) : String :=
  let ds := toString n
  if ds.length < w then String.mk (List.replicate (w - ds.length) '0') ++ ds else ds

/-- `Date.prototype.toISOString` for a valid timestamp (what
`JSON.stringify` emits for a Date, via `toJSON`). -/
def dateToIso (ms : Int) : String :=
  let days := Int.ediv ms 86400000
  let tod := Int.emod ms 86400000
  let ymd := civilFromDays days
  let y := ymd.1
  let m := ymd.2.1
  let d := ymd.2.2
  let yearStr :=
    if 0 ≤ y && y ≤ 9999 then padNat 4 y.natAbs
    else if y < 0 then "-" ++ padNat 6 y.natAbs
    else "+" ++ padNat 6 y.natAbs
  yearStr ++ "-" ++ padNat 2 m.natAbs ++ "-" ++ padNat 2 d.natAbs ++ "T" ++
    padNat 2 (Int.ediv tod 3600000).natAbs ++ ":" ++
    padNat 2 (Int.emod (Int.ediv tod 60000) 60).natAbs ++ ":" ++
    padNat 2 (Int.emod (Int.ediv tod 1000) 60).natAbs ++ "." ++
    padNat 3 (Int.emod tod 1000).natAbs ++ "Z"

/-- Two-digit lowercase hex rendering of a byte. -/
def hex2 (n : Nat) : String :=
  let dig := fun k => if k < 10 then Char.ofNat (48 + k) else Char.ofNat (87 + k)
  String.mk [dig (n / 16 % 16), dig (n % 16)]

/-- `JSON.stringify`'s escaping of a single character inside a string. -/
def escapeJsonChar (c : Char) : String :=
  if c = '"' then "\\\""
  else if c = '\\' then "\\\\"
  else if c = '\n' then "\\n"
  else if c = '\r' then "\\r"
  else if c = '\t' then "\\t"
  else if c = '\x08' then "\\b"
  else if c = '\x0c' then "\\f"
  else if c.toNat < 32 then "\\u00" ++ hex2 c.toNat
  else String.mk [c]

/-- `JSON.stringify` of a string: quoted, with escapes. -/
def quoteJson (s : String) : String :=
  "\"" ++ String.join (s.data.map escapeJsonChar) ++ "\""

mutual
/-- `JSON.stringify` on the modelled values (`NaN` serializes to `null`;
no `undefined`/function members exist in the model). -/
def jsonStringify : JsValue → String
  | .null => "null"
  | .nan => "null"
  | .bool b => if b then "true" else "false"
  | .num q => ratStr q
  | .str s => quoteJson s
  | .arr xs => "[" ++ stringifyElems xs ++ "]"
  | .obj fs => "\x7b" ++ stringifyFields fs ++ "\x7d"

/-- Array elements, comma-separated. -/
def stringifyElems : List JsValue → String
  | [] => ""
  | [x] => jsonStringify x
  | x :: xs => jsonStringify x ++ "," ++ stringifyElems xs

/-- Object members, comma-separated, insertion order. -/
def stringifyFields : List (String × JsValue) → String
  | [] => ""
  | [(k, v)] => quoteJson k ++ ":" ++ jsonStringify v
  | (k, v) :: fs => quoteJson k ++ ":" ++ jsonStringify v ++ "," ++ stringifyFields fs
end

/-- Replace every non-overlapping occurrence of `pat` in `s`, left to
right, as `String.prototype.replace` does with a global regex whose
pattern is the regex-escaped (hence literal) placeholder.  The replacement
is inserted literally; the values the code substitutes contain no `$`
patterns.  The fuel is the string length, enough to scan it once. -/
def replaceAllAux : Nat → List Char → List Char → List Char → List Char
  | 0, s, _, _ => s
  | _ + 1, [], _, _ => []
  | f + 1, c :: rest, pat, repl =>
    if pat.isPrefixOf (c :: rest) then
      repl ++ replaceAllAux f (List.drop pat.length (c :: rest)) pat repl
    else
      c :: replaceAllAux f rest pat repl

/-- String-level wrapper for `replaceAllAux`. -/
def replaceAll (s pat repl : String) : String :=
  String.mk (replaceAllAux s.data.length s.data pat.data repl.data)

/-- JSON's insignificant whitespace. -/
def skipWs (cs : List Char) : List Char :=
  cs.dropWhile (fun c => c == ' ' || c == '\t' || c == '\n' || c == '\r')

/-- Value of a hex digit character. -/
def hexVal (c : Char) : Nat :=
  if c.isDigit then c.toNat - 48
  else if 'a' ≤ c && c ≤ 'f' then c.toNat - 87
  else c.toNat - 55

/-- Parse the remainder of a JSON string (the opening quote already
consumed); returns the decoded string and the rest of the input.
Surrogate-pair recombination is outside the modelled fragment. -/
def pStringRest : List Char → Option (String × List Char)
  | [] => none
  | '"' :: rest => some ("", rest)
  | '\\' :: 'u' :: a :: b :: c :: d :: rest =>
    if [a, b, c, d].all isHexChar then
      (pStringRest rest).map fun p =>
        (String.mk [Char.ofNat (((hexVal a * 16 + hexVal b) * 16 + hexVal c) * 16 + hexVal d)] ++ p.1, p.2)
    else none
  | '\\' :: e :: rest =>
    let esc : Option String :=
      if e = '"' then some "\""
      else if e = '\\' then some "\\"
      else if e = '/' then some "/"
      else if e = 'b' then some "\x08"
      else if e = 'f' then some "\x0c"
      else if e = 'n' then some "\n"
      else if e = 'r' then some "\r"
      else if e = 't' then some "\t"
      else none
    match esc with
    | some s => (pStringRest rest).map fun p => (s ++ p.1, p.2)
    | none => none
  | c :: rest =>
    if c.toNat < 32 then none
    else (pStringRest rest).map fun p => (String.mk [c] ++ p.1, p.2)

/-- Parse a JSON number (strict grammar: optional minus, `0` or a nonzero
digit followed by digits, optional fraction, optional exponent). -/
def pNumber (cs : List Char) : Option (ℚ × List Char) :=
  let (neg, cs1) :=
    match cs with
    | '-' :: r => (true, r)
    | _ => (false, cs)
  let ipRes : Option (List Char × List Char) :=
    match cs1 with
    | '0' :: r => some (['0'], r)
    | c :: r =>
      if c.isDigit && c ≠ '0' then
        some (c :: r.takeWhile Char.isDigit, r.dropWhile Char.isDigit)
      else none
    | [] => none
  match ipRes with
  | none => none
  | some (ip, rest1) =>
    let fracRes : Option (List Char × List Char) :=
      match rest1 with
      | '.' :: r =>
        let fp := r.takeWhile Char.isDigit
        if fp = [] then none else some (fp, r.dropWhile Char.isDigit)
      | _ => some ([], rest1)
    match fracRes with
    | none => none
    | some (fp, rest2) =>
      let expRes : Option (Int × List Char) :=
        match rest2 with
        | e :: r =>
          if e == 'e' || e == 'E' then
            let (sgn, ds) :=
              match r with
              | '+' :: r2 => ((1 : Int), r2)
              | '-' :: r2 => ((-1 : Int), r2)
              | r2 => ((1 : Int), r2)
            let ed := ds.takeWhile Char.isDigit
            if ed = [] then none
            else some (sgn * (digitsToNat ed : Int), ds.dropWhile Char.isDigit)
          else some (0, rest2)
        | [] => some (0, rest2)
      match expRes with
      | none => none
      | some (ex, rest3) =>
        let mag : ℚ := ((digitsToNat (ip ++ fp) : ℚ) / (10 : ℚ) ^ fp.length) * (10 : ℚ) ^ ex
        some (if neg then -mag else mag, rest3)

/-- Insert a member into an object under construction: later duplicate
keys overwrite the earlier value in place, as `JSON.parse` does. -/
def insertField (fs : List (String × JsValue)) (k : String) (v : JsValue) :
    List (String × JsValue) :=
  if fs.any (fun e => e.1 == k) then
    fs.map (fun e => if e.1 == k then (k, v) else e)
  else fs ++ [(k, v)]

mutual
/-- Parse one JSON value at the head of the input (leading whitespace
already skipped).  The fuel decreases on every call; `jsonParse` supplies
more than the parse of any input can consume. -/
def pVal : Nat → List Char → Option (JsValue × List Char)
  | 0, _ => none
  | f + 1, cs =>
    match cs with
    | '\x7b' :: rest => pObj f (skipWs rest)
    | '[' :: rest => pArr f (skipWs rest)
    | '"' :: rest => (pStringRest rest).map fun p => (.str p.1, p.2)
    | 't' :: 'r' :: 'u' :: 'e' :: rest => some (.bool true, rest)
    | 'f' :: 'a' :: 'l' :: 's' :: 'e' :: rest => some (.bool false, rest)
    | 'n' :: 'u' :: 'l' :: 'l' :: rest => some (.null, rest)
    | _ => (pNumber cs).map fun p => (.num p.1, p.2)

/-- Parse an object body after `{` (whitespace skipped). -/
def pObj : Nat → List Char → Option (JsValue × List Char)
  | 0, _ => none
  | f + 1, cs =>
    match cs with
    | '\x7d' :: rest => some (.obj [], rest)
    | cs => pMembers f cs []

/-- Parse object members. -/
def pMembers : Nat → List Char → List (String × JsValue) → Option (JsValue × List Char)
  | 0, _, _ => none
  | f + 1, cs, acc =>
    match cs with
    | '"' :: rest =>
      match pStringRest rest with
      | none => none
      | some (k, r1) =>
        match skipWs r1 with
        | ':' :: r3 =>
          match pVal f (skipWs r3) with
          | none => none
          | some (v, r4) =>
            let acc' := insertField acc k v
            match skipWs r4 with
            | ',' :: r6 => pMembers f (skipWs r6) acc'
            | '\x7d' :: r6 => some (.obj acc', r6)
            | _ => none
        | _ => none
    | _ => none

/-- Parse an array body after `[` (whitespace skipped). -/
def pArr : Nat → List Char → Option (JsValue × List Char)
  | 0, _ => none
  | f + 1, cs =>
    match cs with
    | ']' :: rest => some (.arr [], rest)
    | cs => pElems f cs []

/-- Parse array elements. -/
def pElems : Nat → List Char → List JsValue → Option (JsValue × List Char)
  | 0, _, _ => none
  | f + 1, cs, acc =>
    match pVal f cs with
    | none => none
    | some (v, r1) =>
      match skipWs r1 with
      | ',' :: r3 => pElems f (skipWs r3) (acc ++ [v])
      | ']' :: r3 => some (.arr (acc ++ [v]), r3)
      | _ => none
end

/-- `JSON.parse`: parse one value, allow surrounding whitespace, reject
trailing input; `none` is the thrown `SyntaxError`. -/
def jsonParse (s : String) : Option JsValue :=
  match pVal (4 * s.data.length + 16) (skipWs s.data) with
  | some (v, rest) => if (skipWs rest).isEmpty then some v else none
  | none => none

/-- The `type` field of a parameter schema
(`enum: ['string', 'number', 'boolean', 'date', 'objectId']`). -/
inductive ParamType : Type where
  | string : ParamType
  | number : ParamType
  | boolean : ParamType
  | date : ParamType
  | objectId : ParamType
deriving DecidableEq

/-- The `validation` sub-object of a parameter schema
(`{ min: Number, max: Number, pattern: String, enum: [String] }`).
A field that was never set is `none` (JavaScript `undefined`, falsy). -/
structure ParamValidation : Type where
  min : Option ℚ := none
  max : Option ℚ := none
  pattern : Option String := none
  enum : Option (List String) := none

/-- One entry of `querySchema`'s `parameters` array (`parameterSchema`),
with the mongoose defaults (`type: 'string'`, `required: false`) already
applied at construction. -/
structure ParameterSchema : Type where
  name : String
  type : ParamType := .string
  required : Bool := false
  description : Option String := none
  defaultValue : Option JsValue := none
  validation : Option ParamValidation := none

/-- A `Query` document (the fields of `querySchema`).  `executionCount`
and `averageExecutionTime` are JavaScript numbers, modelled as `ℚ`;
`lastExecuted` is a timestamp in milliseconds or `none` (never set). -/
structure QueryTemplate : Type where
  name : String
  description : Option String := none
  collection : String
  query : JsValue
  parameters : List ParameterSchema := []
  active : Bool := true
  category : String := "search"
  executionCount : ℚ := 0
  lastExecuted : Option ℚ := none
  averageExecutionTime : ℚ := 0
  createdBy : Option String := none
  tags : List String := []

/-- `providedParams.hasOwnProperty(name)`: the provided parameter map is a
JavaScript object, modelled as its `Object.entries` list. -/
def hasKey (provided : List (String × JsValue)) (n : String) : Bool :=
  provided.any (fun e => e.1 == n)

/-- `` `Required parameter '${name}' is missing` ``. -/
def reqMsg (n : String) : String :=
  ("Required parameter '" ++ n) ++ "' is missing"

/-- `` `Unknown parameter '${name}'` ``. -/
def unknownMsg (n : String) : String :=
  ("Unknown parameter '" ++ n) ++ "'"

/-- Common shape of the `` `Parameter '${name}' ...` `` messages. -/
def pmsg (n tail : String) : String :=
  ("Parameter '" ++ n) ++ tail

/-- `` `Parameter '${name}' must be a number` ``. -/
def numMsg (n : String) : String := pmsg n "' must be a number"

/-- `` `Parameter '${name}' must be a boolean` ``. -/
def boolMsg (n : String) : String := pmsg n "' must be a boolean"

/-- `` `Parameter '${name}' must be a valid date` ``. -/
def dateMsg (n : String) : String := pmsg n "' must be a valid date"

/-- `` `Parameter '${name}' must be a valid ObjectId` ``. -/
def oidMsg (n : String) : String := pmsg n "' must be a valid ObjectId"

/-- `` `Parameter '${name}' must be at least ${min}` ``. -/
def atLeastMsg (n : String) (m : ℚ) : String :=
  pmsg n ("' must be at least " ++ ratStr m)

/-- `` `Parameter '${name}' must be at most ${max}` ``. -/
def atMostMsg (n : String) (m : ℚ) : String :=
  pmsg n ("' must be at most " ++ ratStr m)

/-- `` `Parameter '${name}' must be one of: ${enum.join(', ')}` ``. -/
def enumMsg (n : String) (vals : List String) : String :=
  pmsg n ("' must be one of: " ++ String.intercalate ", " vals)

/-- The `switch (paramDef.type)` type checks of `validateParameters`
(`Query.js` lines 174–196), in source order.  The `number` check is
`isNaN(paramValue)`, i.e. `ToNumber` yielding NaN; `string` has no case. -/
def typeErrors (pd : ParameterSchema) (paramName : String) (paramValue : JsValue) : List String :=
  match pd.type with
  | .number => if (jsToNumber paramValue).isNone then [numMsg paramName] else []
  | .boolean =>
    match paramValue with
    | .bool _ => []
    | _ => [boolMsg paramName]
  | .date => if (jsDateParse paramValue).isNone then [dateMsg paramName] else []
  | .objectId => if isValidObjectId paramValue then [] else [oidMsg paramName]
  | .string => []

/-- The range checks of `validateParameters` (`Query.js` lines 198–208):
run only for `number`-typed parameters whose value passed `isNaN`; the
relational comparisons against the numeric bounds coerce the value with
`ToNumber`. -/
def rangeErrors (pd : ParameterSchema) (paramName : String) (paramValue : JsValue) : List String :=
  if pd.type = ParamType.number then
    match jsToNumber paramValue with
    | some q =>
      match pd.validation with
      | some vl =>
        (match vl.min with
         | some mn => if q < mn then [atLeastMsg paramName mn] else []
         | none => []) ++
        (match vl.max with
         | some mx => if mx < q then [atMostMsg paramName mx] else []
         | none => [])
      | none => []
    | none => []
  else []

/-- The enum check of `validateParameters` (`Query.js` lines 210–215):
`validation.enum.includes(paramValue)` with `===` semantics — the enum
entries are schema-cast strings, so only an equal string value matches. -/
def enumErrors (pd : ParameterSchema) (paramName : String) (paramValue : JsValue) : List String :=
  match pd.validation with
  | some vl =>
    match vl.enum with
    | some vals =>
      (match paramValue with
       | .str s => if vals.contains s then [] else [enumMsg paramName vals]
       | _ => [enumMsg paramName vals])
    | none => []
  | none => []

/-- The body of the second loop of `validateParameters` for one provided
`[paramName, paramValue]` entry: unknown parameters short-circuit with a
single error (`continue`), otherwise type, range and enum checks run in
source order. -/
def checkParamValue (t : QueryTemplate) (e : String × JsValue) : List String :=
  match t.parameters.find? (fun p => p.name == e.1) with
  | none => [unknownMsg e.1]
  | some pd => typeErrors pd e.1 e.2 ++ rangeErrors pd e.1 e.2 ++ enumErrors pd e.1 e.2

/-- The first loop of `validateParameters` (`Query.js` lines 158–163):
one error per required parameter whose name the provided map lacks. -/
def requiredParamErrors (t : QueryTemplate) (provided : List (String × JsValue)) : List String :=
  t.parameters.filterMap fun p =>
    if p.required && !(hasKey provided p.name) then some (reqMsg p.name) else none

/-- `querySchema.methods.validateParameters` (`Query.js` lines 155–219):
all required-parameter errors, then the per-entry errors of every provided
parameter, in `Object.entries` order. -/
def validateParameters (t : QueryTemplate) (provided : List (String × JsValue)) : List String :=
  requiredParamErrors t provided ++ provided.flatMap (checkParamValue t)

/-- The per-parameter coercion of `substituteParameters` (`Query.js` lines
230–253).  A `number` coercion that yields NaN is kept as `nan`; a `date`
coercion produces what `JSON.stringify` will see through `Date.toJSON`
(the ISO string for a valid date, `null` for an invalid one); an
`objectId` coercion throws (`none`) on invalid input and otherwise yields
the hex string `JSON.stringify` sees through `ObjectId.toJSON`. -/
def coerceValue (t : QueryTemplate) (paramName : String) (paramValue : JsValue) : Option JsValue :=
  match t.parameters.find? (fun p => p.name == paramName) with
  | some pd =>
    match pd.type with
    | .number =>
      some (match jsToNumber paramValue with
            | some q => .num q
            | none => .nan)
    | .boolean => some (.bool (jsTruthy paramValue))
    | .date =>
      some (match jsNewDate paramValue with
            | some ts => .str (dateToIso ts)
            | none => .null)
    | .objectId => (jsNewObjectId paramValue).map JsValue.str
    | .string => some paramValue
  | none => some paramValue

/-- `querySchema.methods.substituteParameters` (`Query.js` lines 222–259):
serialize `this.query`, then for each provided `[paramName, paramValue]`
replace every occurrence of the literal token `{{paramName}}` with the
serialization of the coerced value, and parse the result; `none` is a
thrown exception (invalid ObjectId input, or `JSON.parse` failing on the
rewritten text). -/
def substituteParameters (t : QueryTemplate) (parameters : List (String × JsValue)) :
    Option JsValue := do
  let queryString ← parameters.foldlM
    (fun queryString e => do
      let substitutionValue ← coerceValue t e.1 e.2
      pure (replaceAll queryString ("\x7b\x7b" ++ e.1 ++ "\x7d\x7d")
              (jsonStringify substitutionValue)))
    (jsonStringify t.query)
  jsonParse queryString

/-- `querySchema.methods.recordExecution` (`Query.js` lines 262–274):
increment the counter, stamp `lastExecuted` with the current time, and
fold the elapsed time into the two-point running average (`save()` is an
external registry write; the updated document is returned). -/
def recordExecution (t : QueryTemplate) (executionTime : ℚ) (now : ℚ) : QueryTemplate :=
  let t1 := { t with
    executionCount := t.executionCount + 1
    lastExecuted := some now }
  if t1.averageExecutionTime = 0 then
    { t1 with averageExecutionTime := executionTime }
  else
    { t1 with averageExecutionTime := (t1.averageExecutionTime + executionTime) / 2 }

/-- The spec's §8 scenario template `findByUni`: query
`{university: "{{uni}}", active: true}` with the single required string
parameter `uni`. -/
def findByUniTemplate : QueryTemplate :=
  { name := "findByUni"
    collection := "universities"
    query := .obj [("university", .str "\x7b\x7buni\x7d\x7d"), ("active", .bool true)]
    parameters := [{ name := "uni", type := .string, required := true }] }

/-- A template whose query holds the placeholder of a `number`-typed
parameter: query `{age: "{{age}}"}` with parameter `age` of type
`number`. -/
def ageQueryTemplate : QueryTemplate :=
  { name := "findByAge"
    collection := "users"
    query := .obj [("age", .str "\x7b\x7bage\x7d\x7d")]
    parameters := [{ name := "age", type := .number }] }

/-- A fresh template: `executionCount = 0`, `averageExecutionTime = 0`,
never executed. -/
def freshTemplate : QueryTemplate :=
  { name := "fresh"
    collection := "users"
    query := .obj [] }

/-- C1: the spec claims `substitute(findByUni, {uni:"Colombo"})` returns
`{university:"Colombo", active:true}`.  The code serializes the query —
where the placeholder necessarily sits inside JSON string quotes — and
splices in `JSON.stringify("Colombo")`, which carries its own quotes, so
the rewritten text is `{"university":""Colombo"","active":true}` and the
final `JSON.parse` throws (`none`): the method never returns the claimed
document. -/
theorem c1_substitute_string_throws :
    substituteParameters findByUniTemplate [("uni", JsValue.str "Colombo")] = none := by
  with_unfolding_all rfl

/-- C2: the spec claims substituting the numeric string `"42"` for a
`number`-typed parameter yields the JSON numeric literal `42` at the
placeholder's position.  The placeholder sits inside JSON string quotes,
so the coerced digits are spliced between the existing quotes and the
result keeps the string `"42"`, not the number `42`. -/
theorem c2_substitute_number_stays_string :
    substituteParameters ageQueryTemplate [("age", JsValue.str "42")] =
      some (JsValue.obj [("age", JsValue.str "42")]) := by
  with_unfolding_all rfl

/-- C3: `recordExecution` increments `executionCount` by one and updates
`averageExecutionTime` to the elapsed time when the previous average is
`0` and to `(previousAverage + elapsed) / 2` otherwise; on a fresh
template, recording `120` then `240` gives counts `1`, `2` and averages
`120`, `180`. -/
theorem c3_recordExecution_rule (t : QueryTemplate) (e now n1 n2 : ℚ) :
    (recordExecution t e now).executionCount = t.executionCount + 1 ∧
    (recordExecution t e now).averageExecutionTime =
      (if t.averageExecutionTime = 0 then e else (t.averageExecutionTime + e) / 2) ∧
    (recordExecution freshTemplate 120 n1).executionCount = 1 ∧
    (recordExecution freshTemplate 120 n1).averageExecutionTime = 120 ∧
    (recordExecution (recordExecution freshTemplate 120 n1) 240 n2).executionCount = 2 ∧
    (recordExecution (recordExecution freshTemplate 120 n1) 240 n2).averageExecutionTime = 180 := by
  refine ⟨?_, ?_, ?_, ?_, ?_, ?_⟩
  · unfold recordExecution
    dsimp only
    split <;> rfl
  · unfold recordExecution
    dsimp only
    split <;> rfl
  · norm_num [recordExecution, freshTemplate]
  · norm_num [recordExecution, freshTemplate]
  · norm_num [recordExecution, freshTemplate]
  · norm_num [recordExecution, freshTemplate]

/-- C8: each `recordExecution` call adds exactly one to `executionCount`
(a strict increase), stamps `lastExecuted` with the current time — which
cannot lie before any previously recorded time — and keeps
`averageExecutionTime` non-negative whenever the elapsed argument and the
prior average are non-negative. -/
theorem c8_recordExecution_invariants (t : QueryTemplate) (e now : ℚ)
    (he : 0 ≤ e) (havg : 0 ≤ t.averageExecutionTime)
    (hlast : ∀ old, t.lastExecuted = some old → old ≤ now) :
    (recordExecution t e now).executionCount = t.executionCount + 1 ∧
    t.executionCount < (recordExecution t e now).executionCount ∧
    (recordExecution t e now).lastExecuted = some now ∧
    (∀ old newT, t.lastExecuted = some old →
      (recordExecution t e now).lastExecuted = some newT → old ≤ newT) ∧
    0 ≤ (recordExecution t e now).averageExecutionTime := by
  have hcount : (recordExecution t e now).executionCount = t.executionCount + 1 := by
    unfold recordExecution; dsimp only; split <;> rfl
  have hstamp : (recordExecution t e now).lastExecuted = some now := by
    unfold recordExecution; dsimp only; split <;> rfl
  refine ⟨hcount, ?_, hstamp, ?_, ?_⟩
  · rw [hcount]; exact lt_add_of_pos_right _ one_pos
  · intro old newT hold hnew
    rw [hstamp] at hnew
    exact (Option.some.injEq _ _ ▸ hnew) ▸ hlast old hold
  · unfold recordExecution
    dsimp only
    split
    · exact he
    · exact div_nonneg (add_nonneg havg he) (by norm_num)

/-- Witness for C8 at a concrete input: the fresh template, elapsed time
`120`, clock `5`. -/
theorem c8_recordExecution_invariants_witness :
    (recordExecution freshTemplate 120 5).executionCount = freshTemplate.executionCount + 1 ∧
    freshTemplate.executionCount < (recordExecution freshTemplate 120 5).executionCount ∧
    (recordExecution freshTemplate 120 5).lastExecuted = some 5 ∧
    (∀ old newT, freshTemplate.lastExecuted = some old →
      (recordExecution freshTemplate 120 5).lastExecuted = some newT → old ≤ newT) ∧
    0 ≤ (recordExecution freshTemplate 120 5).averageExecutionTime :=
  c8_recordExecution_invariants freshTemplate 120 5 (by norm_num) (by norm_num [freshTemplate])
    (fun old h => by simp [freshTemplate] at h)

/-- Strings with different first characters differ. -/
theorem ne_of_head (s t : String) (h : s.data.head? ≠ t.data.head?) : s ≠ t :=
  fun he => h (congrArg (fun u => u.data.head?) he)

/-- Appending to a fixed string is injective. -/
theorem str_append_right_inj (p x y : String) (h : p ++ x = p ++ y) : x = y :=
  String.ext (List.append_cancel_left (congrArg String.data h))

/-- Two appends differ when their left parts differ at an index inside
both. -/
theorem str_app_ne (a b x y : String) (i : Nat)
    (ha : i < a.data.length) (hb : i < b.data.length)
    (hne : a.data.get? i ≠ b.data.get? i) : a ++ x ≠ b ++ y := by
  intro h
  have hd : a.data ++ x.data = b.data ++ y.data := congrArg String.data h
  have h1 : (a.data ++ x.data).get? i = a.data.get? i := List.get?_append ha
  have h2 : (b.data ++ y.data).get? i = b.data.get? i := List.get?_append hb
  exact hne (h1 ▸ h2 ▸ congrArg (fun u => u.get? i) hd)

/-- A string differs from an append whose left part differs from it at an
index inside both. -/
theorem str_ne_app (a b y : String) (i : Nat)
    (ha : i < a.data.length) (hb : i < b.data.length)
    (hne : a.data.get? i ≠ b.data.get? i) : a ≠ b ++ y := by
  intro h
  have hd : a.data = b.data ++ y.data := congrArg String.data h
  have h2 : (b.data ++ y.data).get? i = b.data.get? i := List.get?_append hb
  exact hne (h2 ▸ congrArg (fun u => u.get? i) hd)

/-- `reqMsg` is injective in the parameter name. -/
theorem reqMsg_inj {a b : String} (h : reqMsg a = reqMsg b) : a = b := by
  have hd := congrArg String.data h
  have hd' : ("Required parameter '".data ++ a.data) ++ "' is missing".data =
      ("Required parameter '".data ++ b.data) ++ "' is missing".data := hd
  exact String.ext (List.append_cancel_left (List.append_cancel_right hd'))

/-- `unknownMsg` is injective in the parameter name. -/
theorem unknownMsg_inj {a b : String} (h : unknownMsg a = unknownMsg b) : a = b := by
  have hd : ("Unknown parameter '".data ++ a.data) ++ "'".data =
      ("Unknown parameter '".data ++ b.data) ++ "'".data := congrArg String.data h
  exact String.ext (List.append_cancel_left (List.append_cancel_right hd))

/-- `pmsg` with a fixed name is injective in the tail. -/
theorem pmsg_right_inj {k t1 t2 : String} (h : pmsg k t1 = pmsg k t2) : t1 = t2 :=
  str_append_right_inj _ _ _ h

/-- An "at least" message never equals an "at most" message for the same
name. -/
theorem atLeast_ne_atMost (k : String) (a b : ℚ) : atLeastMsg k a ≠ atMostMsg k b := by
  intro h
  exact str_app_ne "' must be at least " "' must be at most " (ratStr a) (ratStr b) 13
    (by decide) (by decide) (by decide) (pmsg_right_inj h)

/-- An "at least" message never equals an enum message for the same name. -/
theorem atLeast_ne_enum (k : String) (a : ℚ) (vs : List String) :
    atLeastMsg k a ≠ enumMsg k vs := by
  intro h
  exact str_app_ne "' must be at least " "' must be one of: " (ratStr a)
    (String.intercalate ", " vs) 10 (by decide) (by decide) (by decide) (pmsg_right_inj h)

/-- An "at most" message never equals an enum message for the same name. -/
theorem atMost_ne_enum (k : String) (a : ℚ) (vs : List String) :
    atMostMsg k a ≠ enumMsg k vs := by
  intro h
  exact str_app_ne "' must be at most " "' must be one of: " (ratStr a)
    (String.intercalate ", " vs) 10 (by decide) (by decide) (by decide) (pmsg_right_inj h)

/-- A "must be a number" message never equals an "at least" message for
the same name. -/
theorem num_ne_atLeast (k : String) (a : ℚ) : numMsg k ≠ atLeastMsg k a := by
  intro h
  exact str_ne_app "' must be a number" "' must be at least " (ratStr a) 11
    (by decide) (by decide) (by decide) (pmsg_right_inj h)

/-- A "must be a number" message never equals an "at most" message for
the same name. -/
theorem num_ne_atMost (k : String) (a : ℚ) : numMsg k ≠ atMostMsg k a := by
  intro h
  exact str_ne_app "' must be a number" "' must be at most " (ratStr a) 11
    (by decide) (by decide) (by decide) (pmsg_right_inj h)

/-- A "must be a number" message never equals an enum message for the same
name. -/
theorem num_ne_enum (k : String) (vs : List String) : numMsg k ≠ enumMsg k vs := by
  intro h
  exact str_ne_app "' must be a number" "' must be one of: " (String.intercalate ", " vs) 10
    (by decide) (by decide) (by decide) (pmsg_right_inj h)

/-- A "must be a valid ObjectId" message never equals an enum message for
the same name. -/
theorem oid_ne_enum (k : String) (vs : List String) : oidMsg k ≠ enumMsg k vs := by
  intro h
  exact str_ne_app "' must be a valid ObjectId" "' must be one of: "
    (String.intercalate ", " vs) 10 (by decide) (by decide) (by decide) (pmsg_right_inj h)

/-- First characters of the three message families. -/
theorem head_reqMsg (n : String) : (reqMsg n).data.head? = some 'R' := rfl

/-- First character of `unknownMsg`. -/
theorem head_unknownMsg (n : String) : (unknownMsg n).data.head? = some 'U' := rfl

/-- First character of `pmsg`. -/
theorem head_pmsg (n tl : String) : (pmsg n tl).data.head? = some 'P' := rfl

/-- Membership in the first validator loop's output. -/
theorem mem_requiredParamErrors {t : QueryTemplate} {P : List (String × JsValue)} {s : String} :
    s ∈ requiredParamErrors t P ↔
      ∃ p ∈ t.parameters, (p.required && !(hasKey P p.name)) = true ∧ s = reqMsg p.name := by
  unfold requiredParamErrors
  rw [List.mem_filterMap]
  constructor
  · rintro ⟨p, hp, hf⟩
    by_cases hc : (p.required && !(hasKey P p.name)) = true
    · rw [if_pos hc] at hf
      exact ⟨p, hp, hc, (Option.some.injEq _ _ ▸ hf).symm⟩
    · rw [if_neg hc] at hf
      exact absurd hf (Option.noConfusion)
  · rintro ⟨p, hp, hc, hs⟩
    exact ⟨p, hp, by rw [if_pos hc, hs]⟩

/-- Every required-parameter error starts with `R`. -/
theorem requiredParamErrors_head {t : QueryTemplate} {P : List (String × JsValue)} {s : String}
    (h : s ∈ requiredParamErrors t P) : s.data.head? = some 'R' := by
  obtain ⟨p, _, _, hs⟩ := mem_requiredParamErrors.mp h
  rw [hs]; exact head_reqMsg _

/-- Every type-check error is a `Parameter '<name>' ...` message. -/
theorem typeErrors_shape {pd : ParameterSchema} {n : String} {v : JsValue} {s : String}
    (h : s ∈ typeErrors pd n v) : ∃ tl, s = pmsg n tl := by
  unfold typeErrors at h
  split at h
  all_goals try split at h
  all_goals first
    | exact absurd h (List.not_mem_nil s)
    | exact ⟨_, List.mem_singleton.mp h⟩

/-- Every range error is an "at least" or "at most" message for the
parameter's name. -/
theorem rangeErrors_shape {pd : ParameterSchema} {n : String} {v : JsValue} {s : String}
    (h : s ∈ rangeErrors pd n v) :
    (∃ m, s = atLeastMsg n m) ∨ (∃ m, s = atMostMsg n m) := by
  unfold rangeErrors at h
  split at h
  · split at h
    · split at h
      · rcases List.mem_append.mp h with h1 | h1
        · split at h1
          · split at h1
            · exact Or.inl ⟨_, List.mem_singleton.mp h1⟩
            · exact absurd h1 (List.not_mem_nil s)
          · exact absurd h1 (List.not_mem_nil s)
        · split at h1
          · split at h1
            · exact Or.inr ⟨_, List.mem_singleton.mp h1⟩
            · exact absurd h1 (List.not_mem_nil s)
          · exact absurd h1 (List.not_mem_nil s)
      · exact absurd h (List.not_mem_nil s)
    · exact absurd h (List.not_mem_nil s)
  · exact absurd h (List.not_mem_nil s)

/-- Every enum error is an enum message for the parameter's name. -/
theorem enumErrors_shape {pd : ParameterSchema} {n : String} {v : JsValue} {s : String}
    (h : s ∈ enumErrors pd n v) : ∃ vals, s = enumMsg n vals := by
  unfold enumErrors at h
  split at h
  · split at h
    · split at h
      · split at h
        · exact absurd h (List.not_mem_nil s)
        · exact ⟨_, List.mem_singleton.mp h⟩
      · exact ⟨_, List.mem_singleton.mp h⟩
    · exact absurd h (List.not_mem_nil s)
  · exact absurd h (List.not_mem_nil s)

/-- Every error the second validator loop emits for an entry is either
the single unknown-parameter error (when the name matches no schema) or a
`Parameter '<name>' ...` message. -/
theorem checkParamValue_shape {t : QueryTemplate} {e : String × JsValue} {s : String}
    (h : s ∈ checkParamValue t e) :
    (t.parameters.find? (fun p => p.name == e.1) = none ∧ s = unknownMsg e.1) ∨
    (∃ tl, s = pmsg e.1 tl) := by
  unfold checkParamValue at h
  split at h
  · exact Or.inl ⟨by assumption, List.mem_singleton.mp h⟩
  · rcases List.mem_append.mp h with h1 | h1
    · rcases List.mem_append.mp h1 with h2 | h2
      · exact Or.inr (typeErrors_shape h2)
      · rcases rangeErrors_shape h2 with ⟨m, hm⟩ | ⟨m, hm⟩
        · exact Or.inr ⟨_, hm⟩
        · exact Or.inr ⟨_, hm⟩
    · obtain ⟨vals, hv⟩ := enumErrors_shape h1
      exact Or.inr ⟨_, hv⟩

/-- C4: `validateParameters` reports a `Required parameter '<n>' is
missing` error exactly for the schema entries that are required and whose
name is absent from the provided map — every such entry is reported and
nothing else produces a required-parameter error. -/
theorem c4_required_missing (t : QueryTemplate) (P : List (String × JsValue)) (n : String) :
    reqMsg n ∈ validateParameters t P ↔
      ∃ p ∈ t.parameters, p.name = n ∧ p.required = true ∧ hasKey P n = false := by
  unfold validateParameters
  rw [List.mem_append]
  constructor
  · rintro (h | h)
    · obtain ⟨p, hp, hc, hs⟩ := mem_requiredParamErrors.mp h
      have hname : p.name = n := reqMsg_inj hs.symm
      rw [Bool.and_eq_true, Bool.not_eq_true'] at hc
      exact ⟨p, hp, hname, hc.1, hname ▸ hc.2⟩
    · exfalso
      obtain ⟨e, _, hmem⟩ := List.mem_flatMap.mp h
      rcases checkParamValue_shape hmem with ⟨_, hs⟩ | ⟨tl, hs⟩
      · have h1 : (reqMsg n).data.head? = some 'U' := hs ▸ head_unknownMsg e.1
        rw [head_reqMsg] at h1
        exact absurd (Option.some.injEq _ _ ▸ h1) (by decide)
      · have h1 : (reqMsg n).data.head? = some 'P' := hs ▸ head_pmsg e.1 tl
        rw [head_reqMsg] at h1
        exact absurd (Option.some.injEq _ _ ▸ h1) (by decide)
  · rintro ⟨p, hp, hname, hreq, hkey⟩
    refine Or.inl (mem_requiredParamErrors.mpr ⟨p, hp, ?_, by rw [hname]⟩)
    rw [Bool.and_eq_true, Bool.not_eq_true']
    exact ⟨hreq, hname ▸ hkey⟩

/-- The unknown-parameter error for key `k` cannot come from an entry with
a different key. -/
theorem unknown_not_mem_checkParam {t : QueryTemplate} {k : String} {e : String × JsValue}
    (hne : e.1 ≠ k) : unknownMsg k ∉ checkParamValue t e := by
  intro h
  rcases checkParamValue_shape h with ⟨_, hs⟩ | ⟨tl, hs⟩
  · exact hne (unknownMsg_inj hs.symm)
  · have h1 : (unknownMsg k).data.head? = some 'P' := hs ▸ head_pmsg e.1 tl
    rw [head_unknownMsg] at h1
    exact absurd (Option.some.injEq _ _ ▸ h1) (by decide)

/-- With duplicate-free keys, the per-entry errors of a provided map
containing an unknown key `k` hold the unknown-parameter error for `k`
exactly once. -/
theorem count_unknown_flatMap (t : QueryTemplate) (k : String) :
    ∀ P : List (String × JsValue), (P.map Prod.fst).Nodup →
      k ∈ P.map Prod.fst →
      t.parameters.find? (fun p => p.name == k) = none →
      (P.flatMap (checkParamValue t)).count (unknownMsg k) = 1
  | [], _, hk, _ => absurd hk (by simp)
  | e :: P', hnd, hk, hf => by
    rw [List.flatMap_cons, List.count_append]
    by_cases hek : e.1 = k
    · have h1 : (checkParamValue t e).count (unknownMsg k) = 1 := by
        unfold checkParamValue
        rw [hek, hf]
        simp
      have h2 : (P'.flatMap (checkParamValue t)).count (unknownMsg k) = 0 := by
        apply List.count_eq_zero.mpr
        intro hmem
        obtain ⟨e', he', hm⟩ := List.mem_flatMap.mp hmem
        have hk' : e'.1 ≠ k := by
          intro hkk
          have : e.1 ∈ P'.map Prod.fst := by
            rw [hek, ← hkk]
            exact List.mem_map.mpr ⟨e', he', rfl⟩
          exact (List.nodup_cons.mp hnd).1 this
        exact unknown_not_mem_checkParam hk' hm
      rw [h1, h2]
    · have h1 : (checkParamValue t e).count (unknownMsg k) = 0 :=
        List.count_eq_zero.mpr (unknown_not_mem_checkParam hek)
      have hk' : k ∈ P'.map Prod.fst := by
        rcases List.mem_cons.mp hk with h | h
        · exact absurd h.symm hek
        · exact h
      rw [h1, count_unknown_flatMap t k P' (List.nodup_cons.mp hnd).2 hk' hf]

/-- C5: a provided key that matches no declared parameter yields exactly
one `Unknown parameter '<k>'` error, and the per-entry check for that key
short-circuits: its whole output is that single error, so no type, range
or enum check runs on the value. -/
theorem c5_unknown_key (t : QueryTemplate) (P : List (String × JsValue)) (k : String)
    (v : JsValue) (hmem : (k, v) ∈ P) (hnd : (P.map Prod.fst).Nodup)
    (hf : t.parameters.find? (fun p => p.name == k) = none) :
    (validateParameters t P).count (unknownMsg k) = 1 ∧
    checkParamValue t (k, v) = [unknownMsg k] := by
  constructor
  · unfold validateParameters
    rw [List.count_append]
    have h0 : (requiredParamErrors t P).count (unknownMsg k) = 0 := by
      apply List.count_eq_zero.mpr
      intro hm
      have h1 := requiredParamErrors_head hm
      rw [head_unknownMsg] at h1
      exact absurd (Option.some.injEq _ _ ▸ h1) (by decide)
    have h1 := count_unknown_flatMap t k P hnd (List.mem_map.mpr ⟨(k, v), hmem, rfl⟩) hf
    rw [h0, h1]
  · unfold checkParamValue
    rw [hf]

/-- Witness for C5: the `findByUni` template with the unknown key `foo`
provided alongside the declared `uni`. -/
theorem c5_unknown_key_witness :
    (validateParameters findByUniTemplate
        [("uni", JsValue.str "Colombo"), ("foo", JsValue.str "bar")]).count (unknownMsg "foo") = 1 ∧
    checkParamValue findByUniTemplate ("foo", JsValue.str "bar") = [unknownMsg "foo"] :=
  c5_unknown_key findByUniTemplate [("uni", JsValue.str "Colombo"), ("foo", JsValue.str "bar")]
    "foo" (JsValue.str "bar") (by simp) (by simp) rfl

/-- Membership in the range-check output of a `number`-typed parameter
whose value passed `isNaN` and whose `validation` object exists. -/
theorem mem_rangeErrors_iff {pd : ParameterSchema} {k : String} {v : JsValue} {q : ℚ}
    {vl : ParamValidation} (htype : pd.type = ParamType.number)
    (hq : jsToNumber v = some q) (hvl : pd.validation = some vl) (s : String) :
    s ∈ rangeErrors pd k v ↔
      ((∃ mn, vl.min = some mn ∧ q < mn ∧ s = atLeastMsg k mn) ∨
       (∃ mx, vl.max = some mx ∧ mx < q ∧ s = atMostMsg k mx)) := by
  rcases hmn : vl.min with _ | mn <;> rcases hmx : vl.max with _ | mx <;>
    simp only [rangeErrors, htype, hq, hvl, hmn, hmx, if_true] <;>
    (try split_ifs) <;>
    simp_all

/-- Membership in the enum-check output. -/
theorem mem_enumErrors_enumMsg {pd : ParameterSchema} {k : String} {v : JsValue} {s : String}
    (h : s ∈ enumErrors pd k v) :
    ∃ vl vals, pd.validation = some vl ∧ vl.enum = some vals ∧ s = enumMsg k vals := by
  unfold enumErrors at h
  split at h
  · rename_i vl hvl
    split at h
    · rename_i vals hvals
      split at h
      · split at h
        · exact absurd h (List.not_mem_nil s)
        · exact ⟨vl, vals, hvl, hvals, List.mem_singleton.mp h⟩
      · exact ⟨vl, vals, hvl, hvals, List.mem_singleton.mp h⟩
    · exact absurd h (List.not_mem_nil s)
  · exact absurd h (List.not_mem_nil s)

/-- For a `number`-typed parameter whose provided value passes the
`isNaN` check, `validateParameters` on the single-entry map emits no
"must be a number" error, and emits the "at least"/"at most" range errors
exactly when the coerced value lies below the declared minimum or above
the declared maximum. -/
theorem number_param_range (t : QueryTemplate) (k : String) (v : JsValue)
    (pd : ParameterSchema) (q : ℚ)
    (hfind : t.parameters.find? (fun p => p.name == k) = some pd)
    (htype : pd.type = ParamType.number)
    (hq : jsToNumber v = some q) :
    numMsg k ∉ validateParameters t [(k, v)] ∧
    (∀ vl mn, pd.validation = some vl → vl.min = some mn →
      (atLeastMsg k mn ∈ validateParameters t [(k, v)] ↔ q < mn)) ∧
    (∀ vl mx, pd.validation = some vl → vl.max = some mx →
      (atMostMsg k mx ∈ validateParameters t [(k, v)] ↔ mx < q)) := by
  have hck : checkParamValue t (k, v) = rangeErrors pd k v ++ enumErrors pd k v := by
    simp [checkParamValue, hfind, typeErrors, htype, hq]
  have hval : validateParameters t [(k, v)] =
      requiredParamErrors t [(k, v)] ++ (rangeErrors pd k v ++ enumErrors pd k v) := by
    rw [← hck]
    simp [validateParameters]
  have head_ne_req : ∀ tl s, s ∈ requiredParamErrors t [(k, v)] → pmsg k tl ≠ s := by
    intro tl s hs hcontra
    have h1 := requiredParamErrors_head hs
    rw [← hcontra, head_pmsg] at h1
    exact absurd (Option.some.injEq _ _ ▸ h1) (by decide)
  refine ⟨?_, ?_, ?_⟩
  · intro h
    rw [hval] at h
    rcases List.mem_append.mp h with h1 | h1
    · exact head_ne_req _ _ h1 rfl
    rcases List.mem_append.mp h1 with h2 | h2
    · rcases rangeErrors_shape h2 with ⟨m, hm⟩ | ⟨m, hm⟩
      · exact num_ne_atLeast k m hm
      · exact num_ne_atMost k m hm
    · obtain ⟨vals, hvv⟩ := enumErrors_shape h2
      exact num_ne_enum k vals hvv
  · intro vl mn hvl hmn
    constructor
    · intro h
      rw [hval] at h
      rcases List.mem_append.mp h with h1 | h1
      · exact absurd rfl (head_ne_req _ _ h1)
      rcases List.mem_append.mp h1 with h2 | h2
      · rcases (mem_rangeErrors_iff htype hq hvl _).mp h2 with ⟨mn', hmn', hlt, hs⟩ | ⟨mx', _, _, hs⟩
        · rw [hmn] at hmn'
          obtain rfl : mn = mn' := Option.some.injEq _ _ ▸ hmn'
          exact hlt
        · exact absurd hs (atLeast_ne_atMost k mn mx')
      · obtain ⟨vals, hvv⟩ := enumErrors_shape h2
        exact absurd hvv (atLeast_ne_enum k mn vals)
    · intro hlt
      rw [hval]
      refine List.mem_append.mpr (Or.inr (List.mem_append.mpr (Or.inl ?_)))
      exact (mem_rangeErrors_iff htype hq hvl _).mpr (Or.inl ⟨mn, hmn, hlt, rfl⟩)
  · intro vl mx hvl hmx
    constructor
    · intro h
      rw [hval] at h
      rcases List.mem_append.mp h with h1 | h1
      · exact absurd rfl (head_ne_req _ _ h1)
      rcases List.mem_append.mp h1 with h2 | h2
      · rcases (mem_rangeErrors_iff htype hq hvl _).mp h2 with ⟨mn', _, _, hs⟩ | ⟨mx', hmx', hlt, hs⟩
        · exact absurd hs.symm (atLeast_ne_atMost k mn' mx)
        · rw [hmx] at hmx'
          obtain rfl : mx = mx' := Option.some.injEq _ _ ▸ hmx'
          exact hlt
      · obtain ⟨vals, hvv⟩ := enumErrors_shape h2
        exact absurd hvv (atMost_ne_enum k mx vals)
    · intro hlt
      rw [hval]
      refine List.mem_append.mpr (Or.inr (List.mem_append.mpr (Or.inl ?_)))
      exact (mem_rangeErrors_iff htype hq hvl _).mpr (Or.inr ⟨mx, hmx, hlt, rfl⟩)

/-- The schema of the spec's §8 `age` scenario: a `number` parameter with
inclusive bounds 13 and 120. -/
def pdAge : ParameterSchema :=
  { name := "age", type := .number, validation := some { min := some 13, max := some 120 } }

/-- Template owning just the bounded `age` parameter. -/
def ageLimitTemplate : QueryTemplate :=
  { name := "ageLimit"
    collection := "users"
    query := .obj []
    parameters := [pdAge] }

/-- C6: for a `number`-typed parameter with declared bounds, a value that
passes the number check produces the "at least" error exactly when it lies
below the minimum, the "at most" error exactly when it lies above the
maximum, and neither range error when it lies within the inclusive
bounds. -/
theorem c6_number_range_checks (t : QueryTemplate) (k : String) (v : JsValue)
    (pd : ParameterSchema) (vl : ParamValidation) (q : ℚ)
    (hfind : t.parameters.find? (fun p => p.name == k) = some pd)
    (htype : pd.type = ParamType.number)
    (hvl : pd.validation = some vl)
    (hq : jsToNumber v = some q) :
    (∀ mn, vl.min = some mn →
      (atLeastMsg k mn ∈ validateParameters t [(k, v)] ↔ q < mn)) ∧
    (∀ mx, vl.max = some mx →
      (atMostMsg k mx ∈ validateParameters t [(k, v)] ↔ mx < q)) ∧
    (∀ mn mx, vl.min = some mn → vl.max = some mx → mn ≤ q → q ≤ mx →
      atLeastMsg k mn ∉ validateParameters t [(k, v)] ∧
      atMostMsg k mx ∉ validateParameters t [(k, v)]) := by
  obtain ⟨_, hmin, hmax⟩ := number_param_range t k v pd q hfind htype hq
  refine ⟨fun mn hmn => hmin vl mn hvl hmn, fun mx hmx => hmax vl mx hvl hmx, ?_⟩
  intro mn mx hmn hmx hlo hhi
  constructor
  · intro h
    exact absurd ((hmin vl mn hvl hmn).mp h) (not_lt.mpr hlo)
  · intro h
    exact absurd ((hmax vl mx hvl hmx).mp h) (not_lt.mpr hhi)

/-- Witness for C6: `age` bounded by [13, 120]; the value 200 yields the
"at most 120" error, and the boundary value 120 yields neither range
error. -/
theorem c6_number_range_checks_witness :
    (atMostMsg "age" 120 ∈ validateParameters ageLimitTemplate [("age", JsValue.num 200)]) ∧
    (atLeastMsg "age" 13 ∉ validateParameters ageLimitTemplate [("age", JsValue.num 120)]) ∧
    (atMostMsg "age" 120 ∉ validateParameters ageLimitTemplate [("age", JsValue.num 120)]) :=
  have h200 := c6_number_range_checks ageLimitTemplate "age" (JsValue.num 200) pdAge
    { min := some 13, max := some 120 } 200 rfl rfl rfl rfl
  have h120 := c6_number_range_checks ageLimitTemplate "age" (JsValue.num 120) pdAge
    { min := some 13, max := some 120 } 120 rfl rfl rfl rfl
  have hb := h120.2.2 13 120 rfl rfl (by norm_num) (by norm_num)
  ⟨(h200.2.1 120 rfl).mpr (by norm_num), hb.1, hb.2⟩

/-- C10: the `isNaN` number check accepts any value JavaScript coerces to
a number — in particular `true`, `false`, `null` and the empty string
produce no "must be a number" error — and the range checks then compare
the value's numeric coercion (1, 0, 0 and 0 respectively) against the
declared bounds. -/
theorem c10_isNaN_accepts_coercible (t : QueryTemplate) (k : String) (v : JsValue)
    (pd : ParameterSchema) (q : ℚ)
    (hfind : t.parameters.find? (fun p => p.name == k) = some pd)
    (htype : pd.type = ParamType.number)
    (hv : (v = JsValue.bool true ∧ q = 1) ∨ (v = JsValue.bool false ∧ q = 0) ∨
          (v = JsValue.null ∧ q = 0) ∨ (v = JsValue.str "" ∧ q = 0)) :
    jsToNumber v = some q ∧
    numMsg k ∉ validateParameters t [(k, v)] ∧
    (∀ vl mn, pd.validation = some vl → vl.min = some mn →
      (atLeastMsg k mn ∈ validateParameters t [(k, v)] ↔ q < mn)) ∧
    (∀ vl mx, pd.validation = some vl → vl.max = some mx →
      (atMostMsg k mx ∈ validateParameters t [(k, v)] ↔ mx < q)) := by
  have hq : jsToNumber v = some q := by
    rcases hv with ⟨rfl, rfl⟩ | ⟨rfl, rfl⟩ | ⟨rfl, rfl⟩ | ⟨rfl, rfl⟩ <;> rfl
  obtain ⟨h1, h2, h3⟩ := number_param_range t k v pd q hfind htype hq
  exact ⟨hq, h1, h2, h3⟩

/-- Witness for C10: providing `true` for the bounded `age` parameter
yields no "must be a number" error, and the range check compares the
coercion `Number(true) = 1` against the minimum 13, emitting the
"at least 13" error. -/
theorem c10_isNaN_accepts_coercible_witness :
    jsToNumber (JsValue.bool true) = some 1 ∧
    numMsg "age" ∉ validateParameters ageLimitTemplate [("age", JsValue.bool true)] ∧
    (atLeastMsg "age" 13 ∈ validateParameters ageLimitTemplate [("age", JsValue.bool true)]) :=
  have h := c10_isNaN_accepts_coercible ageLimitTemplate "age" (JsValue.bool true) pdAge 1
    rfl rfl (Or.inl ⟨rfl, rfl⟩)
  ⟨h.1, h.2.1, (h.2.2.1 { min := some 13, max := some 120 } 13 rfl rfl).mpr (by norm_num)⟩

/-- The spec's §8 ObjectId scenario template: a single `objectId`-typed
parameter `id`. -/
def oidTemplate : QueryTemplate :=
  { name := "byId"
    collection := "users"
    query := .obj []
    parameters := [{ name := "id", type := .objectId }] }

/-- C7: an `objectId`-typed parameter produces the "must be a valid
ObjectId" error exactly when the provided value is not a syntactically
valid 24-hex-character identifier; in particular the value `"not-an-id"`
yields exactly that one error. -/
theorem c7_objectId_validation (t : QueryTemplate) (k : String) (v : JsValue)
    (pd : ParameterSchema)
    (hfind : t.parameters.find? (fun p => p.name == k) = some pd)
    (htype : pd.type = ParamType.objectId) :
    (oidMsg k ∈ validateParameters t [(k, v)] ↔ isValidObjectId v = false) ∧
    validateParameters oidTemplate [("id", JsValue.str "not-an-id")] = [oidMsg "id"] := by
  constructor
  · have hck : checkParamValue t (k, v) = typeErrors pd k v ++ enumErrors pd k v := by
      simp [checkParamValue, hfind, rangeErrors, htype]
    have hval : validateParameters t [(k, v)] =
        requiredParamErrors t [(k, v)] ++ (typeErrors pd k v ++ enumErrors pd k v) := by
      rw [← hck]
      simp [validateParameters]
    constructor
    · intro h
      rw [hval] at h
      rcases List.mem_append.mp h with h1 | h1
      · exfalso
        have h2 := requiredParamErrors_head h1
        have h3 : (oidMsg k).data.head? = some 'P' := head_pmsg k _
        rw [h3] at h2
        exact absurd (Option.some.injEq _ _ ▸ h2) (by decide)
      rcases List.mem_append.mp h1 with h2 | h2
      · unfold typeErrors at h2
        rw [htype] at h2
        dsimp only at h2
        split at h2
        · exact absurd h2 (List.not_mem_nil _)
        · rename_i hvalid
          exact Bool.not_eq_true _ ▸ hvalid
      · obtain ⟨vals, hvv⟩ := enumErrors_shape h2
        exact absurd hvv (oid_ne_enum k vals)
    · intro hfalse
      rw [hval]
      refine List.mem_append.mpr (Or.inr (List.mem_append.mpr (Or.inl ?_)))
      simp [typeErrors, htype, hfalse]
  · rfl

/-- Witness for C7 at the scenario input `"not-an-id"`. -/
theorem c7_objectId_validation_witness :
    (oidMsg "id" ∈ validateParameters oidTemplate [("id", JsValue.str "not-an-id")]) ∧
    validateParameters oidTemplate [("id", JsValue.str "not-an-id")] = [oidMsg "id"] :=
  have h := c7_objectId_validation oidTemplate "id" (JsValue.str "not-an-id")
    { name := "id", type := .objectId } rfl rfl
  ⟨h.1.mpr rfl, h.2⟩

/-- Erase the (declared but never consulted) `validation.pattern` field of
one parameter schema. -/
def erasePatternParam (p : ParameterSchema) : ParameterSchema :=
  { p with validation := p.validation.map (fun vl => { vl with pattern := none }) }

/-- Erase every parameter's `validation.pattern` field of a template; two
templates are "identical except for patterns" exactly when their erasures
coincide. -/
def erasePatterns (t : QueryTemplate) : QueryTemplate :=
  { t with parameters := t.parameters.map erasePatternParam }

/-- The type checks never read the pattern field. -/
theorem typeErrors_erase (pd : ParameterSchema) (k : String) (v : JsValue) :
    typeErrors (erasePatternParam pd) k v = typeErrors pd k v := rfl

/-- The range checks never read the pattern field. -/
theorem rangeErrors_erase (pd : ParameterSchema) (k : String) (v : JsValue) :
    rangeErrors (erasePatternParam pd) k v = rangeErrors pd k v := by
  rcases hq : jsToNumber v with _ | q <;> rcases hv : pd.validation with _ | vl <;>
    simp [rangeErrors, erasePatternParam, hv, hq]

/-- The enum check never reads the pattern field. -/
theorem enumErrors_erase (pd : ParameterSchema) (k : String) (v : JsValue) :
    enumErrors (erasePatternParam pd) k v = enumErrors pd k v := by
  rcases hv : pd.validation with _ | vl <;> simp [enumErrors, erasePatternParam, hv]

/-- The per-entry checks are unchanged by erasing patterns. -/
theorem checkParamValue_erase (t : QueryTemplate) (e : String × JsValue) :
    checkParamValue (erasePatterns t) e = checkParamValue t e := by
  unfold checkParamValue
  have h1 : (erasePatterns t).parameters = t.parameters.map erasePatternParam := rfl
  rw [h1, List.find?_map]
  have h2 : ((fun p => p.name == e.1) ∘ erasePatternParam) = (fun p => p.name == e.1) := rfl
  rw [h2]
  rcases hf : t.parameters.find? (fun p => p.name == e.1) with _ | pd
  · rw [hf]
    rfl
  · rw [hf]
    show typeErrors (erasePatternParam pd) e.1 e.2 ++ rangeErrors (erasePatternParam pd) e.1 e.2 ++
        enumErrors (erasePatternParam pd) e.1 e.2 =
      typeErrors pd e.1 e.2 ++ rangeErrors pd e.1 e.2 ++ enumErrors pd e.1 e.2
    rw [typeErrors_erase, rangeErrors_erase, enumErrors_erase]

/-- The required-parameter loop is unchanged by erasing patterns. -/
theorem requiredParamErrors_erase (t : QueryTemplate) (P : List (String × JsValue)) :
    requiredParamErrors (erasePatterns t) P = requiredParamErrors t P := by
  unfold requiredParamErrors
  have h1 : (erasePatterns t).parameters = t.parameters.map erasePatternParam := rfl
  rw [h1, List.filterMap_map]
  rfl

/-- `validateParameters` is unchanged by erasing patterns. -/
theorem validateParameters_erase (t : QueryTemplate) (P : List (String × JsValue)) :
    validateParameters (erasePatterns t) P = validateParameters t P := by
  unfold validateParameters
  rw [requiredParamErrors_erase]
  have h : checkParamValue (erasePatterns t) = checkParamValue t :=
    funext (checkParamValue_erase t)
  rw [h]

/-- C9: the validator never applies the `pattern` constraint — two
templates identical except for the `validation.pattern` fields of their
parameter schemas produce identical error lists on every provided
parameter map. -/
theorem c9_pattern_never_applied (t1 t2 : QueryTemplate) (P : List (String × JsValue))
    (h : erasePatterns t1 = erasePatterns t2) :
    validateParameters t1 P = validateParameters t2 P := by
  rw [← validateParameters_erase t1 P, ← validateParameters_erase t2 P, h]

/-- A template whose `code` parameter declares an uppercase-only pattern. -/
def patTemplateA : QueryTemplate :=
  { name := "pat"
    collection := "users"
    query := .obj []
    parameters := [{ name := "code", type := .string,
                     validation := some { pattern := some "^[A-Z]+$" } }] }

/-- The same template with a lowercase-only pattern. -/
def patTemplateB : QueryTemplate :=
  { name := "pat"
    collection := "users"
    query := .obj []
    parameters := [{ name := "code", type := .string,
                     validation := some { pattern := some "^[a-z]+$" } }] }

/-- Witness for C9: the two templates differing only in their patterns
validate the same map identically. -/
theorem c9_pattern_never_applied_witness :
    validateParameters patTemplateA [("code", JsValue.str "x")] =
      validateParameters patTemplateB [("code", JsValue.str "x")] :=
  c9_pattern_never_applied patTemplateA patTemplateB [("code", JsValue.str "x")] rfl
